import Mathlib

/-
Verification of the calibration-driven undistortion and back-projection
pipeline of the OpticALLY repository (src/OpticALLY/Python/ImageDepth.py).

The numerical code is shallowly embedded over the real numbers.  Float32
values flowing through the buffers are modelled by the type FV below,
which is either NaN or an exact real number; NaN propagation of the
source arithmetic is modelled explicitly.  Infinities never arise on the
inputs considered by the theorems and are not modelled.  Rounding error
of binary floating point is not modelled: arithmetic is exact.
-/

open Classical

noncomputable section

/-- A float value as used by the pipeline buffers: either NaN or an exact
real number.  Infinities do not arise on the inputs treated here. -/
inductive FV where
  | nan : FV
  | val : ℝ → FV

/-- NaN test, mirroring numpy isnan. -/
def FV.isNaN : FV → Bool
  | FV.nan => true
  | FV.val _ => false

/-- NaN-propagating addition. -/
def FV.add : FV → FV → FV
  | FV.val a, FV.val b => FV.val (a + b)
  | _, _ => FV.nan

/-- NaN-propagating subtraction. -/
def FV.sub : FV → FV → FV
  | FV.val a, FV.val b => FV.val (a - b)
  | _, _ => FV.nan

/-- NaN-propagating multiplication.  Note that 0 * NaN is NaN, as in IEEE
arithmetic. -/
def FV.mul : FV → FV → FV
  | FV.val a, FV.val b => FV.val (a * b)
  | _, _ => FV.nan

/-- Multiplication of a float buffer entry by a real scalar coefficient
(used for the interpolation weights of the remap). -/
def FV.smul (c : ℝ) : FV → FV
  | FV.val a => FV.val (c * a)
  | FV.nan => FV.nan

/-- Division of a float value by a real scalar.  Division by zero is not
exercised by any theorem below (the source would give an infinity or NaN). -/
def FV.divR (v : FV) (c : ℝ) : FV :=
  match v with
  | FV.nan => FV.nan
  | FV.val a => if c = 0 then FV.nan else FV.val (a / c)

/-- Real division producing a float value: 0/0 is NaN, as in numpy.  A
nonzero numerator over zero would be an infinity in the source; that case
is unreachable in this code (the numerator is bounded by the denominator
wherever fdiv is applied with a zero denominator). -/
def fdiv (a b : ℝ) : FV :=
  if b = 0 then FV.nan else FV.val (a / b)

/-- Comparison d greater-than m: false on NaN, as in numpy. -/
def FV.gtR : FV → ℝ → Bool
  | FV.nan, _ => false
  | FV.val x, m => decide (m < x)

/-- Comparison d less-than m: false on NaN, as in numpy. -/
def FV.ltR : FV → ℝ → Bool
  | FV.nan, _ => false
  | FV.val x, m => decide (x < m)

/-- Validity of a depth sample as computed at ImageDepth.py lines 117-120:
not NaN, strictly above min_depth and strictly below max_depth. -/
def FV.valid (mn mx : ℝ) (d : FV) : Bool :=
  (!d.isNaN) && d.gtR mn && d.ltR mx

/-- Range test of project3d at ImageDepth.py line 192:
(depths > min_depth) and (depths < max_depth).  No explicit NaN test, but
both comparisons are false on NaN. -/
def FV.inRange (mn mx : ℝ) (d : FV) : Bool :=
  d.gtR mn && d.ltR mx

/-- Calibration profile as stored on the ImageDepth object after
load_calibration: both decoded lookup tables and the (transposed, scaled)
3x3 intrinsic matrix. -/
structure Calibration where
  lensDistortionLookup : List FV
  inverseLensDistortionLookup : List FV
  intrinsic : Fin 3 → Fin 3 → ℝ

/-- Focal length fx, read as intrinsic[0, 0] (ImageDepth.py line 182). -/
def Calibration.fx (c : Calibration) : ℝ := c.intrinsic 0 0

/-- Focal length fy, read as intrinsic[1, 1] (line 183). -/
def Calibration.fy (c : Calibration) : ℝ := c.intrinsic 1 1

/-- Principal point x, read as intrinsic[0, 2] (line 184). -/
def Calibration.cx (c : Calibration) : ℝ := c.intrinsic 0 2

/-- Principal point y, read as intrinsic[1, 2] (line 185). -/
def Calibration.cy (c : Calibration) : ℝ := c.intrinsic 1 2

/-- The pixel grid of create_undistortion_lookup, line 59:
all (x, y) with y the outer loop, x the inner loop, row-major. -/
def xyPos (w h : ℕ) : List (ℕ × ℕ) :=
  (List.range h).flatMap (fun y => (List.range w).map (fun x => (x, y)))

/-- Distance of pixel (x, y) from the principal point
(lines 66-74: subtract center, r = sqrt of the sum of squares). -/
def radius (cal : Calibration) (x y : ℕ) : ℝ :=
  Real.sqrt (((x : ℝ) - cal.cx) ^ 2 + ((y : ℝ) - cal.cy) ^ 2)

/-- max_r of line 77: the maximum radius over the whole pixel grid.  The
source np.max raises on an empty grid; the fold base 0 is never the
result for a nonempty grid since every radius is nonnegative. -/
def maxRadius (cal : Calibration) (w h : ℕ) : ℝ :=
  ((xyPos w h).map (fun p => radius cal p.1 p.2)).foldr max 0

/-- np.interp of line 90 with sample positions xp = arange(len fp).
A single-element table is a special branch of the source interpolation:
the result is the lone table entry for every query, a NaN query included
(both order comparisons with the sample point are false on NaN, and the
explicit NaN check exists only in the general branch).  With two or more
entries: a NaN query yields NaN, queries outside the sample range clamp
to the first and last entry, and interior queries interpolate linearly.
The source raises on an empty table (the calibration invariant makes
tables nonempty); the empty case here returns NaN. -/
def npInterp (x : FV) (fp : List FV) : FV :=
  if fp.length = 1 then fp.getD 0 FV.nan
  else
    match x with
    | FV.nan => FV.nan
    | FV.val t =>
      if fp.length = 0 then FV.nan
      else if t ≤ 0 then fp.getD 0 FV.nan
      else if ((fp.length : ℝ) - 1) ≤ t then fp.getD (fp.length - 1) FV.nan
      else
        FV.add (fp.getD (⌊t⌋).toNat FV.nan)
          (FV.mul (FV.val (t - ((⌊t⌋).toNat : ℝ)))
            (FV.sub (fp.getD ((⌊t⌋).toNat + 1) FV.nan) (fp.getD (⌊t⌋).toNat FV.nan)))

/-- The per-pixel distortion scale of create_undistortion_lookup, lines
77-91: normalize the radius by max_r, look the normalized radius times the
table length up in the inverse table, and add 1. -/
def undistScale (cal : Calibration) (w h x y : ℕ) : FV :=
  FV.add (FV.val 1)
    (npInterp
      (FV.mul (fdiv (radius cal x y) (maxRadius cal w h))
        (FV.val (cal.inverseLensDistortionLookup.length : ℝ)))
      cal.inverseLensDistortionLookup)

/-- map_x of lines 93-96: new x coordinate dx * scale + cx, reshaped so
that entry (y, x) belongs to output pixel (x, y). -/
def undistMapX (cal : Calibration) (w h y x : ℕ) : FV :=
  FV.add (FV.mul (FV.val ((x : ℝ) - cal.cx)) (undistScale cal w h x y)) (FV.val cal.cx)

/-- map_y of lines 93-99: new y coordinate dy * scale + cy. -/
def undistMapY (cal : Calibration) (w h y x : ℕ) : FV :=
  FV.add (FV.mul (FV.val ((y : ℝ) - cal.cy)) (undistScale cal w h x y)) (FV.val cal.cy)

/-- Read a pixel of a flat row-major h x w buffer with the border policy
of the remap call (constant border, value 0): out-of-bounds taps read 0. -/
def pixAt (buf : List FV) (w h : ℕ) (x y : ℤ) : FV :=
  if 0 ≤ x ∧ x < (w : ℤ) ∧ 0 ≤ y ∧ y < (h : ℤ) then
    buf.getD (y.toNat * w + x.toNat) FV.nan
  else FV.val 0

/-- Bilinear sampling of a flat row-major buffer at a fractional source
coordinate, as performed by the remap calls of lines 207 and 281
(INTER_LINEAR, constant zero border).  A NaN source coordinate lands out
of bounds in the source library and reads the border value.  The
fixed-point weight quantization of the source library is not modelled;
sampling is exact at integer coordinates, which is what the theorems
below exercise. -/
def bilinear (buf : List FV) (w h : ℕ) : FV → FV → FV
  | FV.val xc, FV.val yc =>
    FV.add
      (FV.add
        (FV.smul ((1 - (xc - (⌊xc⌋ : ℝ))) * (1 - (yc - (⌊yc⌋ : ℝ)))) (pixAt buf w h ⌊xc⌋ ⌊yc⌋))
        (FV.smul ((xc - (⌊xc⌋ : ℝ)) * (1 - (yc - (⌊yc⌋ : ℝ)))) (pixAt buf w h (⌊xc⌋ + 1) ⌊yc⌋)))
      (FV.add
        (FV.smul ((1 - (xc - (⌊xc⌋ : ℝ))) * (yc - (⌊yc⌋ : ℝ))) (pixAt buf w h ⌊xc⌋ (⌊yc⌋ + 1)))
        (FV.smul ((xc - (⌊xc⌋ : ℝ)) * (yc - (⌊yc⌋ : ℝ))) (pixAt buf w h (⌊xc⌋ + 1) (⌊yc⌋ + 1))))
  | _, _ => FV.val 0

/-- All flat pixel positions of load_depth, lines 109-113:
x = i mod width, y = i div width. -/
def xyAll (w h : ℕ) : List (ℕ × ℕ) :=
  (List.range (w * h)).map (fun i => (i % w, i / w))

/-- The per-sample validity list idx of lines 117-120, over the raw
depth buffer. -/
def validList (mn mx : ℝ) (depth : List FV) : List Bool :=
  depth.map (FV.valid mn mx)

/-- Selection of the entries of a list at the true positions of a boolean
list, modelling numpy indexing with np.where of a boolean mask. -/
def selectTrue {α : Type} (xs : List α) (bs : List Bool) : List α :=
  ((xs.zip bs).filter (fun p => p.2)).map (fun p => p.1)

/-- xy after filtering by idx, line 128. -/
def xyFiltered (w h : ℕ) (mn mx : ℝ) (depth : List FV) : List (ℕ × ℕ) :=
  selectTrue (xyAll w h) (validList mn mx depth)

/-- The byte mask of lines 139-141: 255 at valid samples, 0 elsewhere.
The source fills with 255 and zeroes the invalid positions. -/
def loadMask (mn mx : ℝ) (depth : List FV) : List ℕ :=
  depth.map (fun d => if FV.valid mn mx d then (255 : ℕ) else 0)

/-- The sentinel overwrite of lines 144-146: invalid samples (NaN or out
of range) are replaced by -1000 in the dense depth buffer. -/
def sentinelize (mn mx : ℝ) (depth : List FV) : List FV :=
  depth.map (fun d => if FV.valid mn mx d then d else FV.val (-1000))

/-- undistort_depth_map of lines 206-207: remap the sentinel-overwritten
depth buffer through the undistortion map, as a function of the output
pixel (y, x). -/
def depthMapUndistortAt (w h : ℕ) (mn mx : ℝ) (mapX mapY : ℕ → ℕ → FV)
    (depth : List FV) : ℕ → ℕ → FV :=
  fun y x => bilinear (sentinelize mn mx depth) w h (mapX y x) (mapY y x)

/-- numpy rounding to the nearest integer, halves to even. -/
def npRound (x : ℝ) : ℤ :=
  if x - (⌊x⌋ : ℝ) < 1 / 2 then ⌊x⌋
  else if (1 : ℝ) / 2 < x - (⌊x⌋ : ℝ) then ⌊x⌋ + 1
  else if Even ⌊x⌋ then ⌊x⌋ else ⌊x⌋ + 1

/-- project3d of lines 177-203.  Rounds the incoming coordinates to
integers, samples the undistorted depth buffer at the rounded pixel
(negative-index wraparound of the source is not modelled: every caller
passes nonnegative in-range coordinates), computes the good-depth flags
(min_depth < d < max_depth), and back-projects every point as
((x - cx) / fx * d, (y - cy) / fy * d, d).  Returns the full point list
and the good flags, mirroring the pts and good_idx results. -/
def project3d (cal : Calibration) (dmu : ℕ → ℕ → FV) (mn mx : ℝ)
    (pts : List (ℝ × ℝ)) : List (FV × FV × FV) × List Bool :=
  let xy : List (ℤ × ℤ) := pts.map (fun p => (npRound p.1, npRound p.2))
  let depths : List FV := xy.map (fun q => dmu q.2.toNat q.1.toNat)
  ((xy.zip depths).map (fun qd =>
      (FV.mul (fdiv ((qd.1.1 : ℝ) - cal.cx) cal.fx) qd.2,
       FV.mul (fdiv ((qd.1.2 : ℝ) - cal.cy) cal.fy) qd.2,
       qd.2)),
   depths.map (FV.inRange mn mx))

/-- The emitted point set of lines 162-163: the back-projected points at
the good positions, xyz[good_idx]. -/
def backprojectEmitted (cal : Calibration) (dmu : ℕ → ℕ → FV) (mn mx : ℝ)
    (pts : List (ℝ × ℝ)) : List (FV × FV × FV) :=
  selectTrue (project3d cal dmu mn mx pts).1 (project3d cal dmu mn mx pts).2

/-- The good-depth flags of the pipeline run: project3d applied to the
valid filtered pixel coordinates over the undistorted depth buffer. -/
def goodList (cal : Calibration) (w h : ℕ) (mn mx : ℝ)
    (mapX mapY : ℕ → ℕ → FV) (depth : List FV) : List Bool :=
  (project3d cal (depthMapUndistortAt w h mn mx mapX mapY depth) mn mx
    ((xyFiltered w h mn mx depth).map (fun p => ((p.1 : ℝ), (p.2 : ℝ))))).2

/-- The emitted 3D points of the pipeline run (lines 162-163). -/
def emittedXYZ (cal : Calibration) (w h : ℕ) (mn mx : ℝ)
    (mapX mapY : ℕ → ℕ → FV) (depth : List FV) : List (FV × FV × FV) :=
  selectTrue
    (project3d cal (depthMapUndistortAt w h mn mx mapX mapY depth) mn mx
      ((xyFiltered w h mn mx depth).map (fun p => ((p.1 : ℝ), (p.2 : ℝ))))).1
    (goodList cal w h mn mx mapX mapY depth)

/-- srgb_to_linear of lines 224-229: the standard piecewise transfer
function. -/
def srgbToLinear (c : ℝ) : ℝ :=
  if c ≤ 0.04045 then c / 12.92 else ((c + 0.055) / 1.055) ^ (2.4 : ℝ)

/-- Modelled from the spec: the inverse of srgbToLinear, which section 4.6
requires to be provided symmetrically for round-trip testing but which is
absent from the source.  Linear branch below the image of the sRGB
threshold, power branch above it. -/
def linearToSrgb (l : ℝ) : ℝ :=
  if l ≤ 0.04045 / 12.92 then l * 12.92 else 1.055 * l ^ ((1 : ℝ) / 2.4) - 0.055

/-- The 8-bit re-quantization of process_image, lines 232 and 253: the
linear intensity of a raw channel value, scaled by 255 and truncated to
an unsigned byte (truncation toward zero; values here are in [0, 255]). -/
def quantizeLinear (v : ℕ) : ℕ :=
  (⌊srgbToLinear ((v : ℝ) / 255) * 255⌋).toNat

/-- One channel of the quantized linear image img_linear_uint8, as a flat
float buffer ready for the remap call. -/
def chanQ (f : ℕ × ℕ × ℕ → ℕ) (img : List (ℕ × ℕ × ℕ)) : List FV :=
  img.map (fun t => FV.val ((quantizeLinear (f t) : ℕ) : ℝ))

/-- img_undistort of line 281: the quantized linear image remapped through
the undistortion map, per output pixel (y, x), channels independent. -/
def imgUndistortAt (img : List (ℕ × ℕ × ℕ)) (w h : ℕ)
    (mapX mapY : ℕ → ℕ → FV) (y x : ℕ) : FV × FV × FV :=
  (bilinear (chanQ (fun t => t.1) img) w h (mapX y x) (mapY y x),
   bilinear (chanQ (fun t => t.2.1) img) w h (mapX y x) (mapY y x),
   bilinear (chanQ (fun t => t.2.2) img) w h (mapX y x) (mapY y x))

/-- img_undistort flattened to h*w rows of 3 channels, line 129. -/
def imgUndistortFlat (img : List (ℕ × ℕ × ℕ)) (w h : ℕ)
    (mapX mapY : ℕ → ℕ → FV) : List (FV × FV × FV) :=
  (List.range (h * w)).map (fun i => imgUndistortAt img w h mapX mapY (i / w) (i % w))

/-- Division of a color triple by 255, line 130. -/
def div255 (t : FV × FV × FV) : FV × FV × FV :=
  (FV.divR t.1 255, FV.divR t.2.1 255, FV.divR t.2.2 255)

/-- rgb of line 130: the undistorted image rows at the valid depth
positions, divided by 255. -/
def rgbFiltered (img : List (ℕ × ℕ × ℕ)) (w h : ℕ)
    (mapX mapY : ℕ → ℕ → FV) (mn mx : ℝ) (depth : List FV) : List (FV × FV × FV) :=
  (selectTrue (imgUndistortFlat img w h mapX mapY) (validList mn mx depth)).map div255

/-- The emitted colors of line 164: rgb[good_idx]. -/
def emittedRGB (cal : Calibration) (w h : ℕ) (mn mx : ℝ)
    (mapX mapY : ℕ → ℕ → FV) (img : List (ℕ × ℕ × ℕ)) (depth : List FV) :
    List (FV × FV × FV) :=
  selectTrue (rgbFiltered img w h mapX mapY mn mx depth)
    (goodList cal w h mn mx mapX mapY depth)

/-- The observable artifacts of one ImageDepth run. -/
structure RunResult where
  mask : List ℕ
  depthMap : List FV
  xyz : List (FV × FV × FV)
  rgb : List (FV × FV × FV)

/-- One full pipeline run over a calibration, a 3-channel image (already
channel-swapped as by load_image) and a raw depth buffer: the maps are
built from the calibration, the image is converted, quantized and
remapped, the depth is validated, sentinel-overwritten and remapped, and
the surviving pixels are back-projected with their colors. -/
def imageDepthRun (cal : Calibration) (w h : ℕ) (mn mx : ℝ)
    (img : List (ℕ × ℕ × ℕ)) (depth : List FV) : RunResult :=
  { mask := loadMask mn mx depth
    depthMap := sentinelize mn mx depth
    xyz := emittedXYZ cal w h mn mx (undistMapX cal w h) (undistMapY cal w h) depth
    rgb := emittedRGB cal w h mn mx (undistMapX cal w h) (undistMapY cal w h) img depth }

/-- Modelled from the spec, for comparison with the code: the DepthMask as
claim C1 describes it, computed from the remapped (undistorted) depth
values instead of the raw buffer. -/
def maskFromUndistorted (cal : Calibration) (w h : ℕ) (mn mx : ℝ)
    (depth : List FV) : List ℕ :=
  (List.range (h * w)).map (fun i =>
    if FV.valid mn mx
        (bilinear depth w h (undistMapX cal w h (i / w) (i % w))
          (undistMapY cal w h (i / w) (i % w)))
    then (255 : ℕ) else 0)

/-- Modelled from the spec, for comparison with the code: the validity
predicate as claim C2 states it, with an inclusive lower bound:
finite and minDepth less-or-equal d less-than maxDepth. -/
def claimC2Valid (mn mx : ℝ) (d : FV) : Bool :=
  match d with
  | FV.nan => false
  | FV.val x => decide (mn ≤ x) && decide (x < mx)

/-- Modelled from the spec, for comparison with the code: the color claim
C10 asserts for an emitted point whose undistortion map samples source
pixel p = (sx, sy): each channel is
truncate(srgbToLinear(raw / 255) * 255) / 255 of that source pixel. -/
def claimC10Color (img : List (ℕ × ℕ × ℕ)) (w : ℕ) (p : ℕ × ℕ) : FV × FV × FV :=
  (FV.val ((quantizeLinear (img.getD (p.2 * w + p.1) (0, 0, 0)).1 : ℕ) / 255 : ℝ),
   FV.val ((quantizeLinear (img.getD (p.2 * w + p.1) (0, 0, 0)).2.1 : ℕ) / 255 : ℝ),
   FV.val ((quantizeLinear (img.getD (p.2 * w + p.1) (0, 0, 0)).2.2 : ℕ) / 255 : ℝ))

/-- Error raised by load_calibration on a malformed record: a missing
field (KeyError), a byte length that struct.unpack rejects, or a zero
reference width (ZeroDivisionError at the scale computation). -/
inductive CalibrationError where
  | missingField : CalibrationError
  | badTableLength : CalibrationError
  | zeroReferenceWidth : CalibrationError

/-- A calibration record as read from the JSON file: each field optional
(a missing key raises in the source), lookup tables as base64-decoded
byte sequences, the intrinsic matrix as 9 numbers row-major as stored. -/
structure CalibRecord where
  lensDistortionLookup : Option (List ℕ)
  inverseLensDistortionLookup : Option (List ℕ)
  intrinsic : Option (Fin 9 → ℝ)
  intrinsicReferenceDimensionWidth : Option ℚ

/-- Little-endian 32-bit words of a byte sequence, 4 bytes each. -/
def leWords : List ℕ → List ℕ
  | b0 :: b1 :: b2 :: b3 :: rest =>
    (b0 + 256 * b1 + 65536 * b2 + 16777216 * b3) :: leWords rest
  | _ => []

/-- Decode one IEEE binary32 word.  NaNs and infinities (exponent 255) are
both mapped to NaN; no claim depends on an infinite table entry. -/
def f32OfWord (n : ℕ) : FV :=
  if n / 2 ^ 23 % 256 = 255 then FV.nan
  else if n / 2 ^ 23 % 256 = 0 then
    FV.val ((if n / 2 ^ 31 % 2 = 1 then (-1 : ℝ) else 1) * (n % 2 ^ 23 : ℕ) * (2 : ℝ) ^ (-(149 : ℤ)))
  else
    FV.val ((if n / 2 ^ 31 % 2 = 1 then (-1 : ℝ) else 1) * ((2 ^ 23 + n % 2 ^ 23 : ℕ) : ℝ) *
      (2 : ℝ) ^ ((n / 2 ^ 23 % 256 : ℕ) - (150 : ℤ)))

/-- struct.unpack of lines 34-35: interpreting the decoded bytes as
little-endian float32; fails (struct.error) unless the byte length is an
exact multiple of 4. -/
def unpackFloats (bs : List ℕ) : Option (List FV) :=
  if bs.length % 4 = 0 then some ((leWords bs).map f32OfWord) else none

/-- The transpose-and-scale of lines 44-53: the stored row-major 9-vector
is transposed, then fx, fy, cx, cy are multiplied by width / refW. -/
def scaledIntrinsic (width : ℕ) (refW : ℚ) (a : Fin 9 → ℝ) : Fin 3 → Fin 3 → ℝ :=
  fun i j =>
    (if (i.val = 0 ∧ j.val = 0) ∨ (i.val = 1 ∧ j.val = 1) ∨
        (i.val = 0 ∧ j.val = 2) ∨ (i.val = 1 ∧ j.val = 2)
     then (width : ℝ) / (refW : ℝ) else 1) *
    a ⟨j.val * 3 + i.val, by have hi := i.isLt; have hj := j.isLt; omega⟩

/-- load_calibration of lines 25-56, with the failure sites in source
order: the two lookup fields are read (KeyError when missing), unpacked
(struct.error on a byte length not a multiple of 4), then the intrinsic
and the reference width are read (KeyError when missing), and the scale
width / refW is computed (ZeroDivisionError when refW is zero; a negative
refW divides without error). -/
def load_calibration (width : ℕ) (rec : CalibRecord) :
    Except CalibrationError Calibration :=
  match rec.lensDistortionLookup with
  | none => Except.error CalibrationError.missingField
  | some fwdB =>
    match rec.inverseLensDistortionLookup with
    | none => Except.error CalibrationError.missingField
    | some invB =>
      match unpackFloats fwdB with
      | none => Except.error CalibrationError.badTableLength
      | some fwd =>
        match unpackFloats invB with
        | none => Except.error CalibrationError.badTableLength
        | some inv =>
          match rec.intrinsic with
          | none => Except.error CalibrationError.missingField
          | some a =>
            match rec.intrinsicReferenceDimensionWidth with
            | none => Except.error CalibrationError.missingField
            | some refW =>
              if refW = 0 then Except.error CalibrationError.zeroReferenceWidth
              else Except.ok
                { lensDistortionLookup := fwd
                  inverseLensDistortionLookup := inv
                  intrinsic := scaledIntrinsic width refW a }

/-- A concrete calibration with fx = fy = 1, cx = cy = 0 and an inverse
table of one zero entry: used for identity-map instances (its one-entry
table takes the single-element branch of the table interpolation). -/
def calA : Calibration :=
  { lensDistortionLookup := []
    inverseLensDistortionLookup := [FV.val 0]
    intrinsic := fun _ j => if j.val = 2 then 0 else 1 }

/-- A concrete calibration with fx = fy = 1, cx = 2, cy = 0 and inverse
table [0, 2, 0]: on a 2x1 grid its undistortion map sends both output
pixels to source pixel (0, 0). -/
def calB : Calibration :=
  { lensDistortionLookup := []
    inverseLensDistortionLookup := [FV.val 0, FV.val 2, FV.val 0]
    intrinsic := fun i j => if j.val = 2 then (if i.val = 0 then 2 else 0) else 1 }

/-- A concrete calibration like calA (fx = fy = 1, cx = cy = 0) but with a
two-entry all-zero inverse table: the general branch of the table
interpolation applies, so a NaN query propagates. -/
def calC : Calibration :=
  { lensDistortionLookup := []
    inverseLensDistortionLookup := [FV.val 0, FV.val 0]
    intrinsic := fun _ j => if j.val = 2 then 0 else 1 }

/-- A concrete 2-pixel depth buffer: one in-range sample, one out-of-range
sample. -/
def depthC1 : List FV := [FV.val (3 / 10), FV.val (9 / 10)]

/-- A concrete calibration record whose reference width is negative. -/
def recNegWidth : CalibRecord :=
  { lensDistortionLookup := some []
    inverseLensDistortionLookup := some []
    intrinsic := some (fun _ => 1)
    intrinsicReferenceDimensionWidth := some (-640) }

/-! Helper lemmas. -/

lemma getD_map_of_lt {α β : Type} (f : α → β) (l : List α) (i : ℕ)
    (hi : i < l.length) (d : β) (da : α) :
    (l.map f).getD i d = f (l.getD i da) := by
  induction l generalizing i with
  | nil => simp at hi
  | cons a t ih =>
    cases i with
    | zero => simp
    | succ n =>
      simp only [List.map_cons, List.getD_cons_succ]
      exact ih n (by simpa using hi)

lemma valid_neg1000_false (mn mx : ℝ) (hs : ¬(mn < -1000 ∧ (-1000 : ℝ) < mx)) :
    FV.valid mn mx (FV.val (-1000)) = false := by
  simp only [FV.valid, FV.isNaN, FV.gtR, FV.ltR, Bool.not_false, Bool.true_and,
    Bool.and_eq_false_iff, decide_eq_false_iff_not]
  by_cases h1 : mn < -1000
  · exact Or.inr (fun h2 => hs ⟨h1, h2⟩)
  · exact Or.inl h1

/-- C2 (corrected): the DepthMask byte of a pixel is 255 exactly when its
raw depth value is a real number strictly between minDepth and maxDepth;
both bounds are exclusive, so a sample exactly equal to minDepth is
classified invalid, contrary to the half-open interval of the claim. -/
theorem c2_mask_strict_bounds (mn mx : ℝ) (depth : List FV) (i : ℕ)
    (hi : i < depth.length) :
    (loadMask mn mx depth).getD i 0 = 255 ↔
      ∃ x, depth.getD i FV.nan = FV.val x ∧ mn < x ∧ x < mx := by
  unfold loadMask
  rw [getD_map_of_lt _ _ i hi _ FV.nan]
  rcases hd : depth.getD i FV.nan with _ | x
  · simp [FV.valid, FV.isNaN]
  · by_cases hx : mn < x ∧ x < mx
    · simp [FV.valid, FV.isNaN, FV.gtR, FV.ltR, hx.1, hx.2]
    · rw [Classical.not_and_iff_or_not_not] at hx
      rcases hx with hx | hx <;>
        simp [FV.valid, FV.isNaN, FV.gtR, FV.ltR, hx]

/-- Witness for C2 at a concrete in-range sample. -/
theorem c2_mask_strict_bounds_witness :
    (loadMask (1 / 10) (1 / 2) [FV.val (3 / 10)]).getD 0 0 = 255 ↔
      ∃ x, ([FV.val (3 / 10)].getD 0 FV.nan) = FV.val x ∧
        (1 : ℝ) / 10 < x ∧ x < 1 / 2 :=
  c2_mask_strict_bounds (1 / 10) (1 / 2) [FV.val (3 / 10)] 0 (by simp)

/-- Counterexample for C2 as stated: a sample exactly equal to minDepth is
marked 0 (invalid) by the code, while the claimed half-open interval
classifies it valid. -/
theorem c2_counterexample :
    loadMask (1 / 10) (1 / 2) [FV.val (1 / 10)] = [0] ∧
      claimC2Valid (1 / 10) (1 / 2) (FV.val (1 / 10)) = true := by
  constructor
  · simp [loadMask, FV.valid, FV.isNaN, FV.gtR, FV.ltR]
  · simp [claimC2Valid]
    norm_num

/-- C7 (confirmed): when the sentinel -1000 lies outside the open valid
range, re-validating the sentinel-overwritten buffer reproduces both the
mask and the buffer of the first validation. -/
theorem c7_validate_idempotent (mn mx : ℝ) (depth : List FV)
    (hs : ¬(mn < -1000 ∧ (-1000 : ℝ) < mx)) :
    loadMask mn mx (sentinelize mn mx depth) = loadMask mn mx depth ∧
      sentinelize mn mx (sentinelize mn mx depth) = sentinelize mn mx depth := by
  have key : ∀ d, FV.valid mn mx (if FV.valid mn mx d then d else FV.val (-1000)) =
      FV.valid mn mx d := by
    intro d
    by_cases hv : FV.valid mn mx d
    · simp [hv]
    · simp only [Bool.not_eq_true] at hv
      simp [hv, valid_neg1000_false mn mx hs]
  constructor
  · unfold loadMask sentinelize
    rw [List.map_map]
    refine List.map_congr_left (fun d _ => ?_)
    simp only [Function.comp_apply, key d]
  · unfold sentinelize
    rw [List.map_map]
    refine List.map_congr_left (fun d _ => ?_)
    simp only [Function.comp_apply, key d]
    by_cases hv : FV.valid mn mx d <;> simp [hv]

/-- Witness for C7 on a concrete buffer with an in-range sample, a NaN and
an out-of-range sample, with the default bounds. -/
theorem c7_validate_idempotent_witness :
    loadMask (1 / 10) (1 / 2)
        (sentinelize (1 / 10) (1 / 2) [FV.val (3 / 10), FV.nan, FV.val 2]) =
      loadMask (1 / 10) (1 / 2) [FV.val (3 / 10), FV.nan, FV.val 2] ∧
    sentinelize (1 / 10) (1 / 2)
        (sentinelize (1 / 10) (1 / 2) [FV.val (3 / 10), FV.nan, FV.val 2]) =
      sentinelize (1 / 10) (1 / 2) [FV.val (3 / 10), FV.nan, FV.val 2] :=
  c7_validate_idempotent (1 / 10) (1 / 2) [FV.val (3 / 10), FV.nan, FV.val 2]
    (by norm_num)

/-- C9 (confirmed): two calibrations that differ only in the forward
distortion table produce the same undistortion maps and the same full run
result (mask, sentinel buffer, emitted points and colors): no pipeline
stage reads the forward table. -/
theorem c9_forward_table_unused (cal : Calibration) (L : List FV) (w h : ℕ)
    (mn mx : ℝ) (img : List (ℕ × ℕ × ℕ)) (depth : List FV) :
    imageDepthRun { cal with lensDistortionLookup := L } w h mn mx img depth =
        imageDepthRun cal w h mn mx img depth ∧
      undistMapX { cal with lensDistortionLookup := L } w h = undistMapX cal w h ∧
      undistMapY { cal with lensDistortionLookup := L } w h = undistMapY cal w h :=
  ⟨rfl, rfl, rfl⟩

/-- C4 (corrected): load_calibration fails exactly when a required field
is missing, the decoded byte length of either table is not a multiple of
4, or the reference width is exactly zero.  A negative reference width is
accepted (the claimed condition referenceWidth <= 0 is too strong). -/
theorem c4_load_error_characterization (w : ℕ) (rec : CalibRecord) :
    (load_calibration w rec).isOk = false ↔
      rec.lensDistortionLookup = none ∨
      rec.inverseLensDistortionLookup = none ∨
      rec.intrinsic = none ∨
      rec.intrinsicReferenceDimensionWidth = none ∨
      (∃ bs, rec.lensDistortionLookup = some bs ∧ bs.length % 4 ≠ 0) ∨
      (∃ bs, rec.inverseLensDistortionLookup = some bs ∧ bs.length % 4 ≠ 0) ∨
      rec.intrinsicReferenceDimensionWidth = some 0 := by
  rcases hf : rec.lensDistortionLookup with _ | fwdB
  · simp [load_calibration, hf, Except.isOk, Except.toBool]
  rcases hv : rec.inverseLensDistortionLookup with _ | invB
  · simp [load_calibration, hf, hv, Except.isOk, Except.toBool]
  by_cases h4f : fwdB.length % 4 = 0
  · by_cases h4v : invB.length % 4 = 0
    · rcases ha : rec.intrinsic with _ | a
      · simp [load_calibration, hf, hv, ha, unpackFloats, h4f, h4v, Except.isOk, Except.toBool]
      rcases hr : rec.intrinsicReferenceDimensionWidth with _ | refW
      · simp [load_calibration, hf, hv, ha, hr, unpackFloats, h4f, h4v, Except.isOk, Except.toBool]
      by_cases h0 : refW = 0
      · simp [load_calibration, hf, hv, ha, hr, unpackFloats, h4f, h4v, h0, Except.isOk, Except.toBool]
      · simp [load_calibration, hf, hv, ha, hr, unpackFloats, h4f, h4v, h0, Except.isOk, Except.toBool]
    · simp [load_calibration, hf, hv, unpackFloats, h4f, h4v, Except.isOk, Except.toBool]
  · simp [load_calibration, hf, hv, unpackFloats, h4f, Except.isOk, Except.toBool]

/-- Witness for C4 on a record with a bad inverse-table byte length. -/
theorem c4_load_error_characterization_witness :
    (load_calibration 640
        { lensDistortionLookup := some []
          inverseLensDistortionLookup := some [0, 0, 0]
          intrinsic := some (fun _ => 1)
          intrinsicReferenceDimensionWidth := some 640 }).isOk = false ↔
      (some [] : Option (List ℕ)) = none ∨
      (some [0, 0, 0] : Option (List ℕ)) = none ∨
      (some (fun _ => (1 : ℝ)) : Option (Fin 9 → ℝ)) = none ∨
      (some (640 : ℚ) : Option ℚ) = none ∨
      (∃ bs, (some [] : Option (List ℕ)) = some bs ∧ bs.length % 4 ≠ 0) ∨
      (∃ bs, (some [0, 0, 0] : Option (List ℕ)) = some bs ∧ bs.length % 4 ≠ 0) ∨
      (some (640 : ℚ) : Option ℚ) = some 0 :=
  c4_load_error_characterization 640
    { lensDistortionLookup := some []
      inverseLensDistortionLookup := some [0, 0, 0]
      intrinsic := some (fun _ => 1)
      intrinsicReferenceDimensionWidth := some 640 }

/-- Counterexample for C4 as stated: a record whose reference width is the
negative number -640 loads successfully, although the claim requires the
load to abort for every non-positive reference width. -/
theorem c4_counterexample :
    (load_calibration 640 recNegWidth).isOk = true ∧
      recNegWidth.intrinsicReferenceDimensionWidth = some (-640) := by
  constructor
  · simp [load_calibration, recNegWidth, unpackFloats, Except.isOk, Except.toBool]
  · rfl

/-! Lookup-table and map-builder lemmas. -/

lemma getD_val_zero_of_all (fp : List FV) (hz : ∀ v ∈ fp, v = FV.val 0) (k : ℕ)
    (hk : k < fp.length) : fp.getD k FV.nan = FV.val 0 := by
  induction fp generalizing k with
  | nil => simp at hk
  | cons a t ih =>
    cases k with
    | zero => simpa using hz a (by simp)
    | succ n =>
      simp only [List.getD_cons_succ]
      exact ih (fun v hv => hz v (by simp [hv])) n (by simpa using hk)

lemma npInterp_one (x : FV) (fp : List FV) (h1 : fp.length = 1) :
    npInterp x fp = fp.getD 0 FV.nan := by
  unfold npInterp
  rw [if_pos h1]

lemma npInterp_nan (fp : List FV) (h1 : fp.length ≠ 1) :
    npInterp FV.nan fp = FV.nan := by
  unfold npInterp
  rw [if_neg h1]

lemma npInterp_val (t : ℝ) (fp : List FV) (h1 : fp.length ≠ 1) :
    npInterp (FV.val t) fp =
      if fp.length = 0 then FV.nan
      else if t ≤ 0 then fp.getD 0 FV.nan
      else if ((fp.length : ℝ) - 1) ≤ t then fp.getD (fp.length - 1) FV.nan
      else
        FV.add (fp.getD (⌊t⌋).toNat FV.nan)
          (FV.mul (FV.val (t - ((⌊t⌋).toNat : ℝ)))
            (FV.sub (fp.getD ((⌊t⌋).toNat + 1) FV.nan) (fp.getD (⌊t⌋).toNat FV.nan))) := by
  unfold npInterp
  rw [if_neg h1]

lemma npInterp_zero_table (t : ℝ) (fp : List FV) (h0 : fp ≠ [])
    (hz : ∀ v ∈ fp, v = FV.val 0) : npInterp (FV.val t) fp = FV.val 0 := by
  have hlen : fp.length ≠ 0 := fun h => h0 (List.length_eq_zero.mp h)
  have hpos : 0 < fp.length := Nat.pos_of_ne_zero hlen
  by_cases hone : fp.length = 1
  · rw [npInterp_one _ _ hone, getD_val_zero_of_all fp hz 0 hpos]
  rw [npInterp_val _ _ hone, if_neg hlen]
  by_cases h1 : t ≤ 0
  · rw [if_pos h1, getD_val_zero_of_all fp hz 0 hpos]
  · rw [if_neg h1]
    by_cases h2 : ((fp.length : ℝ) - 1) ≤ t
    · rw [if_pos h2, getD_val_zero_of_all fp hz (fp.length - 1) (by omega)]
    · rw [if_neg h2]
      have ht0 : 0 < t := not_le.mp h1
      have hfl0 : 0 ≤ ⌊t⌋ := Int.floor_nonneg.mpr ht0.le
      have h2r : t < (fp.length : ℝ) - 1 := not_le.mp h2
      have hflr : (⌊t⌋ : ℝ) < (fp.length : ℝ) - 1 := lt_of_le_of_lt (Int.floor_le t) h2r
      have hfltn : ⌊t⌋ < (fp.length : ℤ) - 1 := by
        have : (⌊t⌋ : ℝ) < (((fp.length : ℤ) - 1 : ℤ) : ℝ) := by push_cast; linarith
        exact_mod_cast this
      have hi : (⌊t⌋).toNat < fp.length := by omega
      have hi1 : (⌊t⌋).toNat + 1 < fp.length := by omega
      rw [getD_val_zero_of_all fp hz _ hi, getD_val_zero_of_all fp hz _ hi1]
      simp [FV.add, FV.mul, FV.sub]

lemma calA_cx : calA.cx = 0 := rfl

lemma calA_cy : calA.cy = 0 := rfl

lemma radius_calA_zero : radius calA 0 0 = 0 := by
  have h : (((0 : ℕ) : ℝ) - calA.cx) ^ 2 + (((0 : ℕ) : ℝ) - calA.cy) ^ 2 = 0 := by
    rw [calA_cx, calA_cy]; norm_num
  rw [radius, h, Real.sqrt_zero]

lemma radius_calA_one : radius calA 1 0 = 1 := by
  have h : (((1 : ℕ) : ℝ) - calA.cx) ^ 2 + (((0 : ℕ) : ℝ) - calA.cy) ^ 2 = 1 := by
    rw [calA_cx, calA_cy]; norm_num
  rw [radius, h, Real.sqrt_one]

lemma xyPos_11 : xyPos 1 1 = [(0, 0)] := by decide

lemma xyPos_21 : xyPos 2 1 = [(0, 0), (1, 0)] := by decide

lemma maxRadius_calA_21 : maxRadius calA 2 1 = 1 := by
  rw [maxRadius, xyPos_21]
  simp [radius_calA_zero, radius_calA_one]

lemma calC_cx : calC.cx = 0 := rfl

lemma calC_cy : calC.cy = 0 := rfl

lemma calC_table : calC.inverseLensDistortionLookup = [FV.val 0, FV.val 0] := rfl

lemma radius_calC_zero : radius calC 0 0 = 0 := by
  have h : (((0 : ℕ) : ℝ) - calC.cx) ^ 2 + (((0 : ℕ) : ℝ) - calC.cy) ^ 2 = 0 := by
    rw [calC_cx, calC_cy]; norm_num
  rw [radius, h, Real.sqrt_zero]

lemma maxRadius_calC_11 : maxRadius calC 1 1 = 0 := by
  rw [maxRadius, xyPos_11]
  simp [radius_calC_zero]

lemma calC_1x1_nan : undistMapX calC 1 1 0 0 = FV.nan ∧ undistMapY calC 1 1 0 0 = FV.nan := by
  have hs : undistScale calC 1 1 0 0 = FV.nan := by
    unfold undistScale
    rw [maxRadius_calC_11, fdiv, if_pos rfl, calC_table]
    simp only [FV.mul]
    rw [npInterp_nan _ (by simp)]
    simp [FV.add]
  refine ⟨?_, ?_⟩
  · unfold undistMapX
    rw [hs]
    simp [FV.mul, FV.add]
  · unfold undistMapY
    rw [hs]
    simp [FV.mul, FV.add]

/-- C3 (code_bug): on a 1x1 grid whose only pixel coincides with the
principal point and whose inverse table has two (all-zero) entries, max_r
is 0 and the source computes norm_r = 0 / 0 = NaN instead of the 0 the
spec prescribes; the NaN query propagates through the general branch of
the table interpolation, so both map entries are NaN rather than finite.
(Only a single-entry table would swallow the NaN.) -/
theorem c3_degenerate_normR_nan :
    undistMapX calC 1 1 0 0 = FV.nan ∧ undistMapY calC 1 1 0 0 = FV.nan :=
  calC_1x1_nan

/-- C6 (corrected): with a nonempty all-zero inverse table, the built map
is the identity on every output pixel whenever the maximum radius is
nonzero or the table has a single entry (whose interpolation branch
returns the zero entry for every query, a NaN query included).  Only a
zero table of length at least 2 combined with maxR = 0 escapes identity
(claim C3's NaN). -/
theorem c6_zero_table_identity (cal : Calibration) (w h : ℕ)
    (htab : cal.inverseLensDistortionLookup ≠ [])
    (hzero : ∀ v ∈ cal.inverseLensDistortionLookup, v = FV.val 0)
    (hcase : maxRadius cal w h ≠ 0 ∨ cal.inverseLensDistortionLookup.length = 1)
    (x y : ℕ) :
    undistMapX cal w h y x = FV.val (x : ℝ) ∧
      undistMapY cal w h y x = FV.val (y : ℝ) := by
  have hscale : undistScale cal w h x y = FV.val 1 := by
    unfold undistScale
    rcases hcase with hmax | hone
    · rw [fdiv, if_neg hmax]
      simp only [FV.mul]
      rw [npInterp_zero_table _ _ htab hzero]
      simp [FV.add]
    · rw [npInterp_one _ _ hone,
        getD_val_zero_of_all _ hzero 0 (by omega)]
      simp [FV.add]
  refine ⟨?_, ?_⟩
  · unfold undistMapX
    rw [hscale]
    simp only [FV.mul, FV.add]
    norm_num
  · unfold undistMapY
    rw [hscale]
    simp only [FV.mul, FV.add]
    norm_num

/-- Witness for C6 on the 2x1 grid of the zero-table calibration calA,
whose maximum radius is 1. -/
theorem c6_zero_table_identity_witness :
    undistMapX calA 2 1 0 1 = FV.val ((1 : ℕ) : ℝ) ∧
      undistMapY calA 2 1 0 1 = FV.val ((0 : ℕ) : ℝ) :=
  c6_zero_table_identity calA 2 1 (by simp [calA])
    (by intro v hv; simpa [calA] using hv)
    (Or.inl (by rw [maxRadius_calA_21]; norm_num)) 1 0

/-- Counterexample for C6 as stated: for the 1x1 resolution and the
calibration calC, whose inverse table holds two zero entries, the map
entry is NaN, not the identity coordinate 0. -/
theorem c6_counterexample : undistMapX calC 1 1 0 0 ≠ FV.val 0 := by
  rw [calC_1x1_nan.1]
  simp

/-! Back-projection lemmas. -/

lemma selectTrue_nil {α : Type} (bs : List Bool) : selectTrue ([] : List α) bs = [] := by
  simp [selectTrue]

lemma selectTrue_cons {α : Type} (x : α) (xs : List α) (b : Bool) (bs : List Bool) :
    selectTrue (x :: xs) (b :: bs) =
      if b then x :: selectTrue xs bs else selectTrue xs bs := by
  cases b <;> simp [selectTrue]

lemma npRound_natCast (n : ℕ) : npRound ((n : ℕ) : ℝ) = (n : ℤ) := by
  unfold npRound
  rw [Int.floor_natCast]
  norm_num

lemma backprojectEmitted_cons (cal : Calibration) (dmu : ℕ → ℕ → FV) (mn mx : ℝ)
    (q : ℝ × ℝ) (rest : List (ℝ × ℝ)) :
    backprojectEmitted cal dmu mn mx (q :: rest) =
      if FV.inRange mn mx (dmu (npRound q.2).toNat (npRound q.1).toNat) then
        (FV.mul (fdiv (((npRound q.1 : ℤ) : ℝ) - cal.cx) cal.fx)
            (dmu (npRound q.2).toNat (npRound q.1).toNat),
         FV.mul (fdiv (((npRound q.2 : ℤ) : ℝ) - cal.cy) cal.fy)
            (dmu (npRound q.2).toNat (npRound q.1).toNat),
         dmu (npRound q.2).toNat (npRound q.1).toNat) ::
          backprojectEmitted cal dmu mn mx rest
      else backprojectEmitted cal dmu mn mx rest := by
  simp only [backprojectEmitted, project3d, List.map_cons, List.zip_cons_cons]
  rw [selectTrue_cons]

/-- C5 (confirmed): for a list of integer pixels, the emitted point set of
project3d is exactly: for each pixel (px, py) whose nearest-integer
sampled undistorted depth d satisfies minDepth < d < maxDepth, the point
((px - cx) / fx * d, (py - cy) / fy * d, d); pixels failing the depth
check contribute nothing (silently dropped). -/
theorem c5_backproject_formula (cal : Calibration) (dmu : ℕ → ℕ → FV) (mn mx : ℝ)
    (pts : List (ℕ × ℕ)) (hfx : cal.fx ≠ 0) (hfy : cal.fy ≠ 0) :
    backprojectEmitted cal dmu mn mx (pts.map (fun p => ((p.1 : ℝ), (p.2 : ℝ)))) =
      pts.filterMap (fun p =>
        match dmu p.2 p.1 with
        | FV.nan => none
        | FV.val d =>
          if mn < d ∧ d < mx then
            some (FV.val (((p.1 : ℝ) - cal.cx) / cal.fx * d),
                  FV.val (((p.2 : ℝ) - cal.cy) / cal.fy * d), FV.val d)
          else none) := by
  induction pts with
  | nil => simp [backprojectEmitted, project3d, selectTrue]
  | cons p ps ih =>
    rw [List.map_cons, backprojectEmitted_cons, List.filterMap_cons]
    simp only [npRound_natCast, Int.toNat_natCast, Int.cast_natCast]
    cases hd : dmu p.2 p.1 with
    | nan => simp [FV.inRange, FV.gtR, ih]
    | val d =>
      by_cases hr : mn < d ∧ d < mx
      · rw [if_pos (by simp [FV.inRange, FV.gtR, FV.ltR, hr.1, hr.2]), ih]
        rw [fdiv, if_neg hfx, fdiv, if_neg hfy]
        simp [FV.mul, hr]
      · rw [if_neg ?goodfalse, ih]
        case goodfalse =>
          simp only [FV.inRange, FV.gtR, FV.ltR, Bool.and_eq_true, decide_eq_true_eq,
            not_and]
          intro h1 h2
          exact hr ⟨h1, h2⟩
        simp [hr]

/-- Witness for C5 on a single pixel at the principal point of calA with a
constant in-range undistorted depth 0.3. -/
theorem c5_backproject_formula_witness :
    backprojectEmitted calA (fun _ _ => FV.val (3 / 10)) (1 / 10) (1 / 2)
        ([((0 : ℕ), (0 : ℕ))].map (fun p => ((p.1 : ℝ), (p.2 : ℝ)))) =
      [((0 : ℕ), (0 : ℕ))].filterMap (fun p =>
        match (fun _ _ => FV.val (3 / 10) : ℕ → ℕ → FV) p.2 p.1 with
        | FV.nan => none
        | FV.val d =>
          if (1 : ℝ) / 10 < d ∧ d < 1 / 2 then
            some (FV.val (((p.1 : ℝ) - calA.cx) / calA.fx * d),
                  FV.val (((p.2 : ℝ) - calA.cy) / calA.fy * d), FV.val d)
          else none) :=
  c5_backproject_formula calA (fun _ _ => FV.val (3 / 10)) (1 / 10) (1 / 2)
    [((0 : ℕ), (0 : ℕ))]
    (by rw [show calA.fx = 1 from rfl]; norm_num)
    (by rw [show calA.fy = 1 from rfl]; norm_num)

/-! Concrete map evaluations for the calibration calB on a 2x1 grid. -/

lemma calB_cx : calB.cx = 2 := rfl

lemma calB_cy : calB.cy = 0 := rfl

lemma calB_table : calB.inverseLensDistortionLookup = [FV.val 0, FV.val 2, FV.val 0] := rfl

lemma radius_calB_00 : radius calB 0 0 = 2 := by
  have h : (((0 : ℕ) : ℝ) - calB.cx) ^ 2 + (((0 : ℕ) : ℝ) - calB.cy) ^ 2 = 2 ^ 2 := by
    rw [calB_cx, calB_cy]; norm_num
  rw [radius, h, Real.sqrt_sq (by norm_num : (0 : ℝ) ≤ 2)]

lemma radius_calB_10 : radius calB 1 0 = 1 := by
  have h : (((1 : ℕ) : ℝ) - calB.cx) ^ 2 + (((0 : ℕ) : ℝ) - calB.cy) ^ 2 = 1 := by
    rw [calB_cx, calB_cy]; norm_num
  rw [radius, h, Real.sqrt_one]

lemma maxRadius_calB_21 : maxRadius calB 2 1 = 2 := by
  rw [maxRadius, xyPos_21]
  simp [radius_calB_00, radius_calB_10]

lemma undistScale_calB_00 : undistScale calB 2 1 0 0 = FV.val 1 := by
  unfold undistScale
  rw [maxRadius_calB_21, radius_calB_00, calB_table]
  rw [fdiv, if_neg (by norm_num : (2 : ℝ) ≠ 0)]
  simp only [List.length_cons, List.length_nil, FV.mul]
  have h3 : (2 : ℝ) / 2 * ((0 + 1 + 1 + 1 : ℕ) : ℝ) = 3 := by norm_num
  rw [h3, npInterp_val _ _ (by simp)]
  norm_num
  simp [FV.add]

lemma undistScale_calB_10 : undistScale calB 2 1 1 0 = FV.val 2 := by
  unfold undistScale
  rw [maxRadius_calB_21, radius_calB_10, calB_table]
  rw [fdiv, if_neg (by norm_num : (2 : ℝ) ≠ 0)]
  simp only [List.length_cons, List.length_nil, FV.mul]
  have h3 : (1 : ℝ) / 2 * ((0 + 1 + 1 + 1 : ℕ) : ℝ) = 3 / 2 := by norm_num
  rw [h3, npInterp_val _ _ (by simp)]
  rw [if_neg (by norm_num), if_neg (by norm_num : ¬(3 / 2 : ℝ) ≤ 0),
    if_neg (by norm_num : ¬((([FV.val 0, FV.val 2, FV.val 0].length : ℕ) : ℝ) - 1 ≤ 3 / 2))]
  have hfl : ⌊(3 / 2 : ℝ)⌋ = 1 := by
    apply Int.floor_eq_iff.mpr
    constructor <;> norm_num
  rw [hfl]
  simp only [Int.toNat_one, List.getD_cons_succ, List.getD_cons_zero, FV.sub, FV.mul, FV.add]
  norm_num

lemma undistMapX_calB_00 : undistMapX calB 2 1 0 0 = FV.val 0 := by
  unfold undistMapX
  rw [undistScale_calB_00, calB_cx]
  simp only [FV.mul, FV.add]
  norm_num

lemma undistMapX_calB_01 : undistMapX calB 2 1 0 1 = FV.val 0 := by
  unfold undistMapX
  rw [undistScale_calB_10, calB_cx]
  simp only [FV.mul, FV.add]
  norm_num

lemma undistMapY_calB_00 : undistMapY calB 2 1 0 0 = FV.val 0 := by
  unfold undistMapY
  rw [undistScale_calB_00, calB_cy]
  simp only [FV.mul, FV.add]
  norm_num

lemma undistMapY_calB_01 : undistMapY calB 2 1 0 1 = FV.val 0 := by
  unfold undistMapY
  rw [undistScale_calB_10, calB_cy]
  simp only [FV.mul, FV.add]
  norm_num

lemma bilinear_val (buf : List FV) (w h : ℕ) (xc yc : ℝ) :
    bilinear buf w h (FV.val xc) (FV.val yc) =
      FV.add
        (FV.add
          (FV.smul ((1 - (xc - (⌊xc⌋ : ℝ))) * (1 - (yc - (⌊yc⌋ : ℝ))))
            (pixAt buf w h ⌊xc⌋ ⌊yc⌋))
          (FV.smul ((xc - (⌊xc⌋ : ℝ)) * (1 - (yc - (⌊yc⌋ : ℝ))))
            (pixAt buf w h (⌊xc⌋ + 1) ⌊yc⌋)))
        (FV.add
          (FV.smul ((1 - (xc - (⌊xc⌋ : ℝ))) * (yc - (⌊yc⌋ : ℝ)))
            (pixAt buf w h ⌊xc⌋ (⌊yc⌋ + 1)))
          (FV.smul ((xc - (⌊xc⌋ : ℝ)) * (yc - (⌊yc⌋ : ℝ)))
            (pixAt buf w h (⌊xc⌋ + 1) (⌊yc⌋ + 1)))) := rfl

lemma bilinear_depthC1_00 : bilinear depthC1 2 1 (FV.val 0) (FV.val 0) = FV.val (3 / 10) := by
  rw [bilinear_val]
  rw [Int.floor_zero]
  have h00 : pixAt depthC1 2 1 0 0 = FV.val (3 / 10) := by
    rw [pixAt, if_pos (by norm_num)]
    rfl
  have h10 : pixAt depthC1 2 1 (0 + 1) 0 = FV.val (9 / 10) := by
    rw [pixAt, if_pos (by norm_num)]
    rfl
  have h01 : pixAt depthC1 2 1 0 (0 + 1) = FV.val 0 := by
    rw [pixAt, if_neg (by norm_num)]
  have h11 : pixAt depthC1 2 1 (0 + 1) (0 + 1) = FV.val 0 := by
    rw [pixAt, if_neg (by norm_num)]
  rw [h00, h10, h01, h11]
  simp only [FV.smul, FV.add, Int.cast_zero]
  norm_num

lemma maskFromUndist_calB :
    maskFromUndistorted calB 2 1 (1 / 10) (1 / 2) depthC1 = [255, 255] := by
  unfold maskFromUndistorted
  rw [show List.range (1 * 2) = [0, 1] by decide]
  simp only [List.map_cons, List.map_nil]
  norm_num
  rw [undistMapX_calB_00, undistMapY_calB_00, undistMapX_calB_01, undistMapY_calB_01,
    bilinear_depthC1_00]
  refine ⟨?_, ?_⟩ <;>
    · simp only [FV.valid, FV.isNaN, FV.gtR, FV.ltR, Bool.not_false, Bool.true_and,
        Bool.and_eq_true, decide_eq_true_eq]
      norm_num

/-- C1 (corrected): the DepthMask and sentinel overwrite are computed from
the raw depth buffer before any remap: they equal the direct validation of
the raw buffer and do not depend on the calibration (hence not on the
undistortion map) or on the image.  Only the back-projection stage
consults the undistorted depth. -/
theorem c1_mask_from_raw_depth (cal cal2 : Calibration) (w h : ℕ) (mn mx : ℝ)
    (img img2 : List (ℕ × ℕ × ℕ)) (depth : List FV) :
    (imageDepthRun cal w h mn mx img depth).mask = loadMask mn mx depth ∧
      (imageDepthRun cal w h mn mx img depth).depthMap = sentinelize mn mx depth ∧
      (imageDepthRun cal w h mn mx img depth).mask =
        (imageDepthRun cal2 w h mn mx img2 depth).mask ∧
      (imageDepthRun cal w h mn mx img depth).depthMap =
        (imageDepthRun cal2 w h mn mx img2 depth).depthMap :=
  ⟨rfl, rfl, rfl, rfl⟩

/-- Counterexample for C1 as stated: with calibration calB on a 2x1 grid
(whose undistortion map samples source pixel (0, 0) for both output
pixels) and raw depth [0.3, 0.9], the mask recorded by the code is
[255, 0] (computed from the raw buffer), while validating the remapped
depth values would give [255, 255]. -/
theorem c1_counterexample :
    (imageDepthRun calB 2 1 (1 / 10) (1 / 2) [(0, 0, 0), (0, 0, 0)] depthC1).mask ≠
      maskFromUndistorted calB 2 1 (1 / 10) (1 / 2) depthC1 := by
  have hcode :
      (imageDepthRun calB 2 1 (1 / 10) (1 / 2) [(0, 0, 0), (0, 0, 0)] depthC1).mask =
        [255, 0] := by
    show loadMask (1 / 10) (1 / 2) depthC1 = [255, 0]
    simp only [loadMask, depthC1, List.map_cons, List.map_nil, FV.valid, FV.isNaN,
      FV.gtR, FV.ltR, Bool.not_false, Bool.true_and]
    norm_num
  rw [hcode, maskFromUndist_calB]
  simp

/-! Color transfer function lemmas. -/

lemma srgb_threshold_image_above :
    (0.04045 : ℝ) / 12.92 < ((0.09545 : ℝ) / 1.055) ^ (2.4 : ℝ) := by
  have hb0 : (0 : ℝ) ≤ 0.09545 / 1.055 := by norm_num
  have hT : (0 : ℝ) ≤ 0.04045 / 12.92 := by norm_num
  have e1 : ((0.09545 : ℝ) / 1.055) ^ (2.4 : ℝ) =
      (((0.09545 : ℝ) / 1.055) ^ (12 : ℕ)) ^ ((1 : ℝ) / 5) := by
    rw [show (2.4 : ℝ) = (12 : ℕ) * ((1 : ℝ) / 5) by norm_num, Real.rpow_mul hb0,
      Real.rpow_natCast]
  have e2 : (0.04045 : ℝ) / 12.92 =
      (((0.04045 : ℝ) / 12.92) ^ (5 : ℕ)) ^ ((1 : ℝ) / 5) := by
    rw [← Real.rpow_natCast ((0.04045 : ℝ) / 12.92) 5, ← Real.rpow_mul hT]
    rw [show ((5 : ℕ) : ℝ) * ((1 : ℝ) / 5) = 1 by push_cast; norm_num, Real.rpow_one]
  have h5 : ((0.04045 : ℝ) / 12.92) ^ (5 : ℕ) < ((0.09545 : ℝ) / 1.055) ^ (12 : ℕ) := by
    norm_num
  rw [e1]
  conv_lhs => rw [e2]
  exact Real.rpow_lt_rpow (pow_nonneg hT 5) h5 (by norm_num)

/-- C8 (confirmed; the inverse is modelled from the spec, the source
provides only srgbToLinear): for every c in [0, 1] the round trip
linearToSrgb (srgbToLinear c) returns c exactly, in particular within the
claimed 1e-5 tolerance. -/
theorem c8_srgb_round_trip (c : ℝ) (_h0 : 0 ≤ c) (_h1 : c ≤ 1) :
    |linearToSrgb (srgbToLinear c) - c| ≤ 1e-5 := by
  have hexact : linearToSrgb (srgbToLinear c) = c := by
    unfold srgbToLinear linearToSrgb
    by_cases hc : c ≤ 0.04045
    · rw [if_pos hc, if_pos ((div_le_div_iff_of_pos_right (by norm_num : (0 : ℝ) < 12.92)).mpr hc)]
      field_simp
    · have hc4 : (0.04045 : ℝ) < c := not_le.mp hc
      have hb : (0 : ℝ) ≤ (c + 0.055) / 1.055 :=
        div_nonneg (by linarith) (by norm_num)
      rw [if_neg hc, if_neg ?hbig]
      · rw [← Real.rpow_mul hb, show (2.4 : ℝ) * ((1 : ℝ) / 2.4) = 1 by norm_num,
          Real.rpow_one]
        field_simp
      case hbig =>
        rw [not_le]
        have hlt : (0.09545 : ℝ) / 1.055 < (c + 0.055) / 1.055 :=
          (div_lt_div_iff_of_pos_right (by norm_num : (0 : ℝ) < 1.055)).mpr (by linarith)
        exact lt_trans srgb_threshold_image_above
          (Real.rpow_lt_rpow (by norm_num) hlt (by norm_num))
  rw [hexact]
  norm_num

/-- Witness for C8 at c = 0. -/
theorem c8_srgb_round_trip_witness : |linearToSrgb (srgbToLinear 0) - 0| ≤ 1e-5 :=
  c8_srgb_round_trip 0 le_rfl (by norm_num)

/-! Color pipeline lemmas. -/

lemma FV.not_nan_exists {v : FV} (h : v.isNaN = false) : ∃ r, v = FV.val r := by
  cases v with
  | nan => simp [FV.isNaN] at h
  | val r => exact ⟨r, rfl⟩

lemma map_selectTrue {α β : Type} (f : α → β) (xs : List α) (bs : List Bool) :
    (selectTrue xs bs).map f = selectTrue (xs.map f) bs := by
  induction xs generalizing bs with
  | nil => simp [selectTrue]
  | cons x t ih =>
    cases bs with
    | nil => simp [selectTrue]
    | cons b bt =>
      rw [List.map_cons, selectTrue_cons, selectTrue_cons]
      cases b
      · simpa using ih bt
      · simp [ih bt]

lemma flat_index_lt (w h sx sy : ℕ) (hsx : sx < w) (hsy : sy < h) :
    sy * w + sx < w * h := by
  calc sy * w + sx < sy * w + w := by omega
    _ = (sy + 1) * w := by ring
    _ ≤ h * w := Nat.mul_le_mul_right w (by omega)
    _ = w * h := Nat.mul_comm h w

lemma pixAt_not_nan (buf : List FV) (w h : ℕ) (hlen : w * h ≤ buf.length)
    (hvals : ∀ v ∈ buf, v.isNaN = false) (i j : ℤ) :
    (pixAt buf w h i j).isNaN = false := by
  unfold pixAt
  split
  case isTrue hin =>
    obtain ⟨hi0, hiw, hj0, hjh⟩ := hin
    have h1 : j.toNat < h := by omega
    have h2 : i.toNat < w := by omega
    have hidx : j.toNat * w + i.toNat < buf.length :=
      lt_of_lt_of_le (flat_index_lt w h i.toNat j.toNat h2 h1) hlen
    rw [List.getD_eq_getElem buf FV.nan hidx]
    exact hvals _ (List.getElem_mem hidx)
  case isFalse hout => simp [FV.isNaN]

lemma bilinear_natCast (buf : List FV) (w h m n : ℕ)
    (htap : ∀ i j : ℤ, (pixAt buf w h i j).isNaN = false) :
    bilinear buf w h (FV.val ((m : ℕ) : ℝ)) (FV.val ((n : ℕ) : ℝ)) =
      pixAt buf w h (m : ℤ) (n : ℤ) := by
  rw [bilinear_val, Int.floor_natCast, Int.floor_natCast]
  obtain ⟨r0, h0⟩ := FV.not_nan_exists (htap (m : ℤ) (n : ℤ))
  obtain ⟨r1, h1⟩ := FV.not_nan_exists (htap ((m : ℤ) + 1) (n : ℤ))
  obtain ⟨r2, h2⟩ := FV.not_nan_exists (htap (m : ℤ) ((n : ℤ) + 1))
  obtain ⟨r3, h3⟩ := FV.not_nan_exists (htap ((m : ℤ) + 1) ((n : ℤ) + 1))
  rw [h0, h1, h2, h3]
  simp only [Int.cast_natCast, sub_self]
  simp [FV.smul, FV.add]

lemma chanQ_length (f : ℕ × ℕ × ℕ → ℕ) (img : List (ℕ × ℕ × ℕ)) :
    (chanQ f img).length = img.length := by simp [chanQ]

lemma chanQ_not_nan (f : ℕ × ℕ × ℕ → ℕ) (img : List (ℕ × ℕ × ℕ)) :
    ∀ v ∈ chanQ f img, v.isNaN = false := by
  intro v hv
  simp only [chanQ, List.mem_map] at hv
  obtain ⟨t, _, rfl⟩ := hv
  rfl

lemma pixAt_chanQ (f : ℕ × ℕ × ℕ → ℕ) (img : List (ℕ × ℕ × ℕ)) (w h sx sy : ℕ)
    (hsx : sx < w) (hsy : sy < h) (hlen : img.length = w * h) :
    pixAt (chanQ f img) w h (sx : ℤ) (sy : ℤ) =
      FV.val ((quantizeLinear (f (img.getD (sy * w + sx) (0, 0, 0))) : ℕ) : ℝ) := by
  unfold pixAt
  rw [if_pos (by omega)]
  simp only [Int.toNat_natCast]
  have hidx : sy * w + sx < img.length := by
    rw [hlen]; exact flat_index_lt w h sx sy hsx hsy
  unfold chanQ
  rw [getD_map_of_lt _ img (sy * w + sx) hidx FV.nan (0, 0, 0)]

/-- C10 (confirmed): when the undistortion map sends every output pixel to
the integer source pixel s(y, x) in bounds, the emitted colors of the run
are exactly the pipeline selection of the linear-light quantized colors:
each channel is truncate(srgbToLinear(raw / 255) * 255) / 255 of the
source pixel sampled by the map, never the original sRGB intensity. -/
theorem c10_colors_quantized_linear (cal : Calibration) (w h : ℕ) (mn mx : ℝ)
    (mapX mapY : ℕ → ℕ → FV) (img : List (ℕ × ℕ × ℕ)) (depth : List FV)
    (s : ℕ → ℕ → ℕ × ℕ) (hw : 0 < w) (hlen : img.length = w * h)
    (hs : ∀ y x, y < h → x < w →
      mapX y x = FV.val (((s y x).1 : ℕ) : ℝ) ∧
      mapY y x = FV.val (((s y x).2 : ℕ) : ℝ) ∧ (s y x).1 < w ∧ (s y x).2 < h) :
    emittedRGB cal w h mn mx mapX mapY img depth =
      selectTrue
        (selectTrue
          ((List.range (h * w)).map (fun i => claimC10Color img w (s (i / w) (i % w))))
          (validList mn mx depth))
        (goodList cal w h mn mx mapX mapY depth) := by
  unfold emittedRGB
  congr 1
  unfold rgbFiltered
  rw [map_selectTrue]
  congr 1
  unfold imgUndistortFlat
  rw [List.map_map]
  apply List.map_congr_left
  intro i hi
  have hiwh : i < h * w := List.mem_range.mp hi
  have hy : i / w < h := (Nat.div_lt_iff_lt_mul hw).mpr hiwh
  have hx : i % w < w := Nat.mod_lt i hw
  obtain ⟨hmx, hmy, hsx, hsy⟩ := hs (i / w) (i % w) hy hx
  show div255 (imgUndistortAt img w h mapX mapY (i / w) (i % w)) =
    claimC10Color img w (s (i / w) (i % w))
  have htap : ∀ (f : ℕ × ℕ × ℕ → ℕ) (a b : ℤ),
      (pixAt (chanQ f img) w h a b).isNaN = false :=
    fun f => pixAt_not_nan _ _ _ (by rw [chanQ_length, hlen]) (chanQ_not_nan f img)
  unfold imgUndistortAt
  rw [hmx, hmy, bilinear_natCast _ _ _ _ _ (htap _), bilinear_natCast _ _ _ _ _ (htap _),
    bilinear_natCast _ _ _ _ _ (htap _)]
  rw [pixAt_chanQ _ _ _ _ _ _ hsx hsy hlen, pixAt_chanQ _ _ _ _ _ _ hsx hsy hlen,
    pixAt_chanQ _ _ _ _ _ _ hsx hsy hlen]
  unfold div255 claimC10Color
  simp only [FV.divR]
  rw [if_neg (by norm_num : (255 : ℝ) ≠ 0), if_neg (by norm_num : (255 : ℝ) ≠ 0),
    if_neg (by norm_num : (255 : ℝ) ≠ 0)]

/-- Witness for C10 on a 2x1 identity-like map with image
[(255, 10, 0), (0, 0, 0)] and depth [0.3, 0.9]. -/
theorem c10_colors_quantized_linear_witness :
    emittedRGB calA 2 1 (1 / 10) (1 / 2) (fun _ x => FV.val ((x : ℕ) : ℝ))
        (fun _ _ => FV.val ((0 : ℕ) : ℝ)) [(255, 10, 0), (0, 0, 0)] depthC1 =
      selectTrue
        (selectTrue
          ((List.range (1 * 2)).map (fun i =>
            claimC10Color [(255, 10, 0), (0, 0, 0)] 2 (i % 2, 0)))
          (validList (1 / 10) (1 / 2) depthC1))
        (goodList calA 2 1 (1 / 10) (1 / 2) (fun _ x => FV.val ((x : ℕ) : ℝ))
          (fun _ _ => FV.val ((0 : ℕ) : ℝ)) depthC1) :=
  c10_colors_quantized_linear calA 2 1 (1 / 10) (1 / 2)
    (fun _ x => FV.val ((x : ℕ) : ℝ)) (fun _ _ => FV.val ((0 : ℕ) : ℝ))
    [(255, 10, 0), (0, 0, 0)] depthC1 (fun _ x => (x, 0)) (by norm_num) rfl
    (fun y x _ hx => ⟨rfl, rfl, hx, Nat.one_pos⟩)
